import Mathlib

set_option autoImplicit false

/-!
Shallow embedding of the asynchronous PDF-processing job queue
(`backend/models.py`, `backend/services.py`, `backend/worker.py`,
`backend/main.py`).

Redis is modelled as explicit key-value stores with per-key TTL recorded at
write time; the stream queue, the worker loop and the producer are modelled
as explicit state-passing functions; the external extraction calls
(pypdf, OCR, Gemini network requests) are modelled as an oracle, while the
retry/return skeleton of `process_with_gemini` and all of
`process_document`, `process_message`, `add_job_to_queue`, `save_result`,
`get_result` and `get_job_status` is translated from the source.
-/

/-- models.py ParserType: available PDF parser types. -/
inductive ParserType where
  | pypdf
  | gemini
deriving DecidableEq, Repr

/-- The string value of a ParserType member (it is a str-Enum). -/
def ParserType.value : ParserType → String
  | .pypdf => "pypdf"
  | .gemini => "gemini"

/-- Parsing a string into a ParserType, as pydantic enum validation does. -/
def ParserType.ofValue : String → Option ParserType
  | "pypdf" => some .pypdf
  | "gemini" => some .gemini
  | _ => none

/-- models.py ProcessingStatus: processing job status. -/
inductive ProcessingStatus where
  | pending
  | processing
  | completed
  | failed
deriving DecidableEq, Repr

/-- The string value of a ProcessingStatus member (it is a str-Enum). -/
def ProcessingStatus.value : ProcessingStatus → String
  | .pending => "pending"
  | .processing => "processing"
  | .completed => "completed"
  | .failed => "failed"

/-- Parsing a string into a ProcessingStatus, as pydantic enum validation does. -/
def ProcessingStatus.ofValue : String → Option ProcessingStatus
  | "pending" => some .pending
  | "processing" => some .processing
  | "completed" => some .completed
  | "failed" => some .failed
  | _ => none

/-- models.py ProcessingResult: the job status record stored in Redis. -/
structure ProcessingResult where
  job_id : String
  filename : String
  parser : ParserType
  status : ProcessingStatus
  content : Option String := none
  summary : Option String := none
  error : Option String := none
  created_at : String
  completed_at : Option String := none
deriving DecidableEq, Repr

/-- The JSON object produced by json.dumps(result.dict(exclude_none=True)):
every field value in the record is a string (enums serialize to their str
value), so the serialized form is a list of key-value string pairs in
declaration order, with fields that are None omitted. -/
def dictExcludeNone (r : ProcessingResult) : List (String × String) :=
  [("job_id", r.job_id), ("filename", r.filename),
   ("parser", r.parser.value), ("status", r.status.value)]
  ++ (match r.content with | some c => [("content", c)] | none => [])
  ++ (match r.summary with | some s => [("summary", s)] | none => [])
  ++ (match r.error with | some e => [("error", e)] | none => [])
  ++ [("created_at", r.created_at)]
  ++ (match r.completed_at with | some c => [("completed_at", c)] | none => [])

/-- Looking a field up in a decoded JSON object. -/
def lookupField (d : List (String × String)) (k : String) : Option String :=
  (d.find? (fun p => p.1 == k)).map (fun p => p.2)

/-- ProcessingResult(**json.loads(data)): pydantic validation requires every
non-Optional field to be present, parses the enum fields from their string
values, and defaults each absent Optional field to None. -/
def fromDict (d : List (String × String)) : Option ProcessingResult := do
  let job_id ← lookupField d "job_id"
  let filename ← lookupField d "filename"
  let parser ← (lookupField d "parser").bind ParserType.ofValue
  let status ← (lookupField d "status").bind ProcessingStatus.ofValue
  let created_at ← lookupField d "created_at"
  pure { job_id := job_id, filename := filename, parser := parser,
         status := status,
         content := lookupField d "content",
         summary := lookupField d "summary",
         error := lookupField d "error",
         created_at := created_at,
         completed_at := lookupField d "completed_at" }

/-- A key-value store with per-key expiration: each Redis SET with ex
records the stored value along with the TTL given at write time. -/
structure KVStore (α : Type) where
  data : String → Option (α × Nat)

/-- Redis SET key value ex=ttl. -/
def KVStore.set {α : Type} (st : KVStore α) (k : String) (v : α) (ttl : Nat) :
    KVStore α :=
  ⟨fun q => if q = k then some (v, ttl) else st.data q⟩

/-- Redis GET key (the TTL bookkeeping is not visible to GET). -/
def KVStore.get {α : Type} (st : KVStore α) (k : String) : Option α :=
  (st.data k).map (fun p => p.1)

/-- An empty store. -/
def KVStore.empty {α : Type} : KVStore α := ⟨fun _ => none⟩

/-- A binary payload (the uploaded PDF bytes); its contents are never
inspected by the queue/status core, only handed to the extractor. -/
def Payload : Type := List Nat

instance : DecidableEq Payload := by
  unfold Payload
  infer_instance

/-- services.py line 59: the Payload Store key for a job, pdf_key. -/
def pdfKey (job_id : String) : String := "pdf:" ++ job_id

/-- services.py line 98: the Status Store key for a job. -/
def resultKey (job_id : String) : String := "result:" ++ job_id

/-- The state of the two Redis clients as seen by this subsystem: the text
client holds the serialized status records, the binary client holds the
payloads, acked collects the xack-ed message ids, and log is a ghost
chronological list of every status record passed to save_result. -/
structure SysState where
  text : KVStore (List (String × String))
  binary : KVStore Payload
  acked : List String
  log : List ProcessingResult

/-- The state with both stores empty. -/
def SysState.empty : SysState := ⟨KVStore.empty, KVStore.empty, [], []⟩

/-- services.py RedisService.save_result: SET result:job_id to the JSON dump
of the record with exclude_none, ex=3600. -/
def save_result (s : SysState) (r : ProcessingResult) : SysState :=
  { s with
      text := s.text.set (resultKey r.job_id) (dictExcludeNone r) 3600,
      log := s.log ++ [r] }

/-- services.py RedisService.get_result: GET result:job_id and rebuild the
record from the parsed JSON; None when the key is absent. -/
def get_result (s : SysState) (job_id : String) : Option ProcessingResult :=
  (s.text.get (resultKey job_id)).bind fromDict

/-- services.py RedisService.get_pdf_data: GET on the binary client. -/
def get_pdf_data (s : SysState) (pdf_key : String) : Option Payload :=
  s.binary.get pdf_key

/-- services.py RedisService.acknowledge_message: XACK of the message id. -/
def acknowledge_message (s : SysState) (message_id : String) : SysState :=
  { s with acked := message_id :: s.acked }

/-- A queue entry as placed on the stream by add_job_to_queue
(the timestamp field is not read by the worker and is omitted). -/
structure Message where
  job_id : String
  filename : String
  parser : ParserType
  pdf_key : String
deriving DecidableEq, Repr

/-- services.py RedisService.add_job_to_queue, store effects: SET the payload
at pdf:job_id with ex=3600, then save the initial PENDING record with
created_at = now (the XADD itself is modelled at the system-trace level). -/
def add_job_to_queue (s : SysState) (job_id filename : String)
    (pdf_data : Payload) (parser : ParserType) (now : String) : SysState :=
  let s1 : SysState :=
    { s with binary := s.binary.set (pdfKey job_id) pdf_data 3600 }
  save_result s1
    { job_id := job_id, filename := filename, parser := parser,
      status := .pending, created_at := now }

/-- The outcome of one Gemini attempt (upload, wait, generate_content) in
process_with_gemini: the generated text, a requests timeout, or any other
raised error (HTTP error, FAILED file state, and so on). -/
inductive AttemptOutcome where
  | ok (text : String)
  | timeout (msg : String)
  | err (msg : String)
deriving DecidableEq, Repr

/-- The external extraction calls, abstracted as an oracle: extract_with_pypdf
and generate_summary are library/remote computations over the payload, and
geminiAttempts gives the outcome of the i-th network attempt of
process_with_gemini for a given payload, filename and is_summary_only flag. -/
structure ExtractorOracle where
  pypdfExtract : Payload → Except String String
  summarize : String → Except String String
  geminiAttempts : Payload → String → Bool → Nat → AttemptOutcome

/-- services.py line 277/314: the fallback text returned when Gemini gives
empty or very short output. -/
def geminiNoTextMsg : String := "No text could be extracted from the PDF."

/-- services.py line 323: the text returned after the last timed-out attempt. -/
def geminiTimeoutMsg (retries : Nat) : String :=
  "Processing timed out after " ++ toString retries ++
    " attempts. The PDF may be too large or complex."

/-- The attempt loop of process_with_gemini, with remaining counting the
attempts still allowed (remaining plus attempt minus one equals retries):
a successful attempt returns its text (or the no-text fallback when the
stripped text is shorter than 10 characters), a non-timeout error
propagates, a timeout on the last attempt returns the timeout message and
otherwise the loop retries. When the loop runs zero times the Python
function falls through and returns None. -/
def geminiLoop (attempts : Nat → AttemptOutcome) (retries : Nat) :
    Nat → Nat → Except String (Option String)
  | _, 0 => .ok none
  | attempt, remaining + 1 =>
    match attempts attempt with
    | .ok text =>
        if text.trim.length < 10 then .ok (some geminiNoTextMsg)
        else .ok (some text)
    | .err m => .error m
    | .timeout _ =>
        if remaining = 0 then .ok (some (geminiTimeoutMsg retries))
        else geminiLoop attempts retries (attempt + 1) remaining

/-- services.py PDFProcessingService.process_with_gemini, modulo the network
calls which are supplied by the oracle. -/
def process_with_gemini (ext : ExtractorOracle) (pdf_data : Payload)
    (filename : String) (is_summary_only : Bool) (retries : Nat) :
    Except String (Option String) :=
  geminiLoop (ext.geminiAttempts pdf_data filename is_summary_only) retries 1 retries

/-- services.py PDFProcessingService.process_document: pypdf extraction plus
summary, or two Gemini passes (full content, then summary), each with the
default retries=3; any raised error propagates to the caller. -/
def process_document (ext : ExtractorOracle) (pdf_data : Payload)
    (parser : ParserType) (filename : String) :
    Except String (Option String × Option String) :=
  match parser with
  | .pypdf => do
      let content ← ext.pypdfExtract pdf_data
      let summary ← ext.summarize content
      pure (some content, some summary)
  | .gemini => do
      let content ← process_with_gemini ext pdf_data filename false 3
      let summary ← process_with_gemini ext pdf_data filename true 3
      pure (content, summary)

/-- worker.py line 44: the message of the exception raised when the payload
is absent. -/
def pdfNotFoundMsg : String := "PDF data not found in Redis"

/-- worker.py line 59 calls len(summary); when process_document hands back
None for the summary this raises a TypeError (its text is modelled here up
to quoting), which then takes the failure path. Unreachable with the
default retries. -/
def lenNoneMsg : String := "object of type NoneType has no len()"

/-- worker.py lines 79-91, the except branch of process_message: re-read the
status record, and only when it is present mark it failed with the error
message and completed_at = now; acknowledge the message in every case. -/
def worker_fail (s : SysState) (message_id : String) (m : Message)
    (e : String) (now : String) : SysState :=
  let s2 : SysState :=
    match get_result s m.job_id with
    | some r =>
        save_result s
          { r with status := .failed, error := some e, completed_at := some now }
    | none => s
  acknowledge_message s2 message_id

/-- worker.py Worker.process_message: mark the record processing when it
exists, fetch the payload, run the extractor, persist the completed record
on success (created_at preserved from the initially read record when it
existed, otherwise now) or take the failure path, and acknowledge. The two
datetime.now calls of the terminal write are modelled by the single
parameter now. -/
def process_message (ext : ExtractorOracle) (now : String) (s : SysState)
    (message_id : String) (m : Message) : SysState :=
  let result0 := get_result s m.job_id
  let s1 : SysState :=
    match result0 with
    | some r => save_result s { r with status := .processing }
    | none => s
  match get_pdf_data s1 m.pdf_key with
  | none => worker_fail s1 message_id m pdfNotFoundMsg now
  | some pdf_data =>
    match process_document ext pdf_data m.parser m.filename with
    | .error e => worker_fail s1 message_id m e now
    | .ok (content, osummary) =>
      match osummary with
      | none => worker_fail s1 message_id m lenNoneMsg now
      | some summary =>
        let r : ProcessingResult :=
          { job_id := m.job_id, filename := m.filename, parser := m.parser,
            status := .completed, content := content, summary := some summary,
            created_at :=
              match result0 with
              | some r0 => r0.created_at
              | none => now,
            completed_at := some now }
        acknowledge_message (save_result s1 r) message_id

/-- The whole system: the store state, the stream entries appended but not
yet consumed by the worker (in append order), and the ghost set of job ids
ever issued by the producer (main.py generates each with uuid.uuid4, so an
id is never reused). -/
structure Sys where
  store : SysState
  queue : List (String × Message)
  used : List String

/-- The initial system: empty stores, empty stream, no issued ids. -/
def Sys.init : Sys := ⟨SysState.empty, [], []⟩

/-- One step of the system: either the producer accepts a job with a fresh
job id (upload_document followed by add_job_to_queue), or the worker
consumes the next stream entry with process_message, which acknowledges it
unconditionally so the entry is never redelivered. -/
inductive Step : Sys → Sys → Prop
  | enqueue (σ : Sys) (job_id filename : String) (pdf_data : Payload)
      (parser : ParserType) (now mid : String) (hfresh : job_id ∉ σ.used) :
      Step σ
        ⟨add_job_to_queue σ.store job_id filename pdf_data parser now,
         σ.queue ++ [(mid, ⟨job_id, filename, parser, pdfKey job_id⟩)],
         job_id :: σ.used⟩
  | work (σ : Sys) (ext : ExtractorOracle) (now mid : String) (m : Message)
      (rest : List (String × Message)) (hq : σ.queue = (mid, m) :: rest) :
      Step σ ⟨process_message ext now σ.store mid m, rest, σ.used⟩

/-- The states the system can reach from the initial state. -/
def Reachable (σ : Sys) : Prop :=
  Relation.ReflTransGen Step Sys.init σ

/-- The chronological list of status values among a list of record writes
that belong to a given job id. -/
def statusesOfLog (log : List ProcessingResult) (j : String) :
    List ProcessingStatus :=
  (log.filter (fun r => r.job_id == j)).map ProcessingResult.status

/-- The chronological list of status values written for a given job id. -/
def statusesFor (σ : Sys) (j : String) : List ProcessingStatus :=
  statusesOfLog σ.store.log j

/-- The position of a status in the forward order pending, processing,
terminal. -/
def statusRank : ProcessingStatus → Nat
  | .pending => 0
  | .processing => 1
  | .completed => 2
  | .failed => 2

/-- The field invariant every stored record satisfies: a completed record
has content and summary and no error, a failed record has an error and no
content or summary, and a non-terminal record has none of the three. -/
def goodRecord (r : ProcessingResult) : Prop :=
  (r.status = .completed →
     (∃ c, r.content = some c) ∧ (∃ sm, r.summary = some sm) ∧ r.error = none) ∧
  (r.status = .failed →
     (∃ e, r.error = some e) ∧ r.content = none ∧ r.summary = none) ∧
  (r.status = .pending ∨ r.status = .processing →
     r.content = none ∧ r.summary = none ∧ r.error = none)

/-- What holds of an entry still sitting in the stream: its payload key is
the derived one, and its job has exactly the pending record the producer
wrote, with matching fields. -/
def entryOK (σ : Sys) (e : String × Message) : Prop :=
  e.2.pdf_key = pdfKey e.2.job_id ∧
  ∃ r0, get_result σ.store e.2.job_id = some r0 ∧ r0.status = .pending ∧
    r0.job_id = e.2.job_id ∧ r0.filename = e.2.filename ∧
    r0.parser = e.2.parser ∧ statusesFor σ e.2.job_id = [.pending]

/-- The inductive invariant of the system. -/
def SysInv (σ : Sys) : Prop :=
  (∀ j r, get_result σ.store j = some r → r.job_id = j ∧ goodRecord r) ∧
  (∀ j, List.Chain' (fun a b => statusRank a < statusRank b) (statusesFor σ j)) ∧
  (∀ e ∈ σ.queue, entryOK σ e ∧ e.2.job_id ∈ σ.used) ∧
  List.Pairwise (fun a b => a.2.job_id ≠ b.2.job_id) σ.queue ∧
  (∀ j, j ∉ σ.used → get_result σ.store j = none ∧ statusesFor σ j = [])

/-- models.py JobStatusResponse: the caller-facing view of a job. -/
structure JobStatusResponse where
  job_id : String
  filename : String
  parser : ParserType
  status : ProcessingStatus
  content : Option String := none
  summary : Option String := none
  error : Option String := none
  progress : Option String := none
deriving DecidableEq, Repr

/-- main.py lines 191-199: the progress hint derived from the status. -/
def progressMessage : ProcessingStatus → Option String
  | .pending => some "Waiting in queue..."
  | .processing =>
      some "Processing document... This may take several minutes for large PDFs."
  | .completed => some "Processing complete!"
  | .failed => some "Processing failed"

/-- main.py lines 201-210: the response built from the record. -/
def mkStatusResponse (r : ProcessingResult) : JobStatusResponse :=
  { job_id := r.job_id, filename := r.filename, parser := r.parser,
    status := r.status, content := r.content, summary := r.summary,
    error := r.error, progress := progressMessage r.status }

/-- The possible outcomes of the status endpoint: a JSON response, or an
HTTPException with status code 400, 404 or 408. -/
inductive QueryOutcome where
  | ok (view : JobStatusResponse)
  | validationError (detail : String)
  | notFound (detail : String)
  | requestTimeout (detail : String)
deriving DecidableEq, Repr

/-- main.py line 149: the polling window in seconds. -/
def queryTimeout : Nat := 300

/-- main.py line 150: seconds slept between two polls. -/
def queryPollInterval : Nat := 2

/-- Removing every occurrence of a nonempty pattern from a character list,
left to right without overlap, as str.replace with an empty replacement
does; the fuel argument bounds the recursion and is always given as the
length of the input, which suffices because every step consumes at least
one character. -/
def removeSubAux (pat : List Char) : Nat → List Char → List Char
  | 0, l => l
  | _ + 1, [] => []
  | fuel + 1, c :: rest =>
      if pat ≠ [] ∧ pat.isPrefixOf (c :: rest) then
        removeSubAux pat fuel (List.drop pat.length (c :: rest))
      else c :: removeSubAux pat fuel rest

/-- str.replace pat with the empty string. -/
def removeSub (pat : List Char) (l : List Char) : List Char :=
  removeSubAux pat l.length l

/-- str.strip applied with the two brace characters: removes every leading
and trailing brace. -/
def stripBraces (l : List Char) : List Char :=
  ((l.dropWhile (fun c => c = '\x7b' ∨ c = '\x7d')).reverse.dropWhile
      (fun c => c = '\x7b' ∨ c = '\x7d')).reverse

/-- A hexadecimal digit. -/
def isHexDigitChar (c : Char) : Bool :=
  c.isDigit || ('a' ≤ c && c ≤ 'f') || ('A' ≤ c && c ≤ 'F')

/-- The normalization uuid.UUID performs on its string argument: drop the
urn: and uuid: markers, strip surrounding braces, drop hyphens. -/
def uuidHex (s : String) : List Char :=
  removeSub ['-']
    (stripBraces
      (removeSub "uuid:".data (removeSub "urn:".data s.data)))

/-- The ASCII whitespace characters int() skips around a numeric string
(space, tab, newline, carriage return, vertical tab, form feed). -/
def isPyIntSpace (c : Char) : Bool :=
  c = ' ' || c = '\t' || c = '\n' || c = '\r' || c = '\x0b' || c = '\x0c'

/-- Dropping the leading and trailing whitespace int() tolerates. -/
def intStripWs (l : List Char) : List Char :=
  ((l.dropWhile isPyIntSpace).reverse.dropWhile isPyIntSpace).reverse

/-- The continuation of a base-16 digit run in which single underscores may
separate digits, as int() accepts: an underscore must be followed by a
digit, so no doubled and no trailing underscore. -/
def hexUnderscoreTail : List Char → Bool
  | [] => true
  | '_' :: c :: rest => isHexDigitChar c && hexUnderscoreTail rest
  | c :: rest => isHexDigitChar c && hexUnderscoreTail rest

/-- A nonempty base-16 digit run with single separating underscores; it
must start with a digit, so no leading underscore. -/
def hexUnderscoreRun : List Char → Bool
  | [] => false
  | c :: rest => isHexDigitChar c && hexUnderscoreTail rest

/-- What int(s, 16) accepts after the optional sign: an optional 0x or 0X
base marker, which may be followed by one underscore, and then a digit
run. -/
def hexLiteralBody : List Char → Bool
  | '0' :: x :: rest =>
      if x = 'x' ∨ x = 'X' then
        match rest with
        | '_' :: rest2 => hexUnderscoreRun rest2
        | _ => hexUnderscoreRun rest
      else hexUnderscoreRun ('0' :: x :: rest)
  | l => hexUnderscoreRun l

/-- int(s, 16) acceptance on the normalized id, ASCII fragment: surrounding
whitespace, an optional sign, then hexLiteralBody. A minus sign cannot
survive the hyphen removal, and would anyway produce a negative value that
fails the 0 <= int < 2^128 range check of the UUID constructor, so it is
rejected; Unicode decimal digits and Unicode spaces, which int() first maps
to their ASCII counterparts, are outside this model. -/
def acceptsHexLiteral (l : List Char) : Bool :=
  match intStripWs l with
  | '+' :: rest => hexLiteralBody rest
  | '-' :: _ => false
  | l1 => hexLiteralBody l1

/-- uuid.UUID(job_id) succeeds: the normalized form is exactly 32
characters and parses as a base-16 integer; since hyphens never survive
normalization the value is nonnegative, and 32 characters bound it below
2^128, so the constructor range check never fires. -/
def isValidUUID (s : String) : Bool :=
  (uuidHex s).length == 32 && acceptsHexLiteral (uuidHex s)

/-- The result of the polling loop of main.py lines 155-169: either some
iteration observed an absent record and raised the 404, or the loop ended
(by break or by the window elapsing) with the last value of the result
variable. -/
inductive LoopResult where
  | found404
  | finished (result : Option ProcessingResult)
deriving DecidableEq, Repr

/-- The polling loop: while elapsed < queryTimeout, fetch the record (obs i
is what get_result returns at the i-th poll); a terminal record breaks out,
a non-terminal record sleeps queryPollInterval seconds and polls again, an
absent record raises the 404. The fuel argument only bounds the recursion:
since elapsed grows by queryPollInterval each iteration, an initial fuel of
queryTimeout can never run out before the window check stops the loop. -/
def pollLoopAux (obs : Nat → Option ProcessingResult) :
    Nat → Nat → Nat → Option ProcessingResult → LoopResult
  | 0, _, _, result => .finished result
  | fuel + 1, i, elapsed, result =>
    if elapsed < queryTimeout then
      match obs i with
      | some r =>
          if r.status = .completed ∨ r.status = .failed then .finished (some r)
          else pollLoopAux obs fuel (i + 1) (elapsed + queryPollInterval) (some r)
      | none => .found404
    else .finished result

/-- Python str.strip with no argument: remove leading and trailing
whitespace (the empty-id check `not job_id or not job_id.strip()` holds
exactly when this is the empty string). -/
def pyStrip (s : String) : String :=
  ⟨((s.data.dropWhile Char.isWhitespace).reverse.dropWhile
      Char.isWhitespace).reverse⟩

/-- main.py get_job_status: validate the job id (empty check, then UUID
parse) before any store access, then poll; after the loop a still-absent
result is the 408, and otherwise the current record is returned as the
response even when it is still non-terminal. -/
def get_job_status (job_id : String) (obs : Nat → Option ProcessingResult) :
    QueryOutcome :=
  if pyStrip job_id = "" then .validationError "Job ID is required"
  else if ¬ isValidUUID job_id then .validationError "Invalid job ID format"
  else
    match pollLoopAux obs queryTimeout 0 0 none with
    | .found404 => .notFound "Job not found"
    | .finished none =>
        .requestTimeout "Request timeout: Job processing took too long"
    | .finished (some r) => .ok (mkStatusResponse r)

/-- A concrete extraction oracle whose pypdf path succeeds; used to build
concrete system runs. -/
def oracleOk : ExtractorOracle :=
  { pypdfExtract := fun _ => .ok "the extracted content",
    summarize := fun _ => .ok "the generated summary",
    geminiAttempts := fun _ _ _ _ => .err "unused" }

/-- A concrete extraction oracle whose Gemini attempts all time out. -/
def oracleTimeout : ExtractorOracle :=
  { pypdfExtract := fun _ => .error "unused",
    summarize := fun _ => .error "unused",
    geminiAttempts := fun _ _ _ _ => .timeout "read timed out" }

/-- A concrete queue entry for job j1 with the pypdf parser. -/
def msgJ1 : Message := ⟨"j1", "a.pdf", .pypdf, pdfKey "j1"⟩

/-- A concrete queue entry for job j2 with the gemini parser. -/
def msgJ2 : Message := ⟨"j2", "b.pdf", .gemini, pdfKey "j2"⟩

/-- A concrete completed record. -/
def sampleCompleted : ProcessingResult :=
  { job_id := "j1", filename := "a.pdf", parser := .pypdf,
    status := .completed, content := some "the extracted content",
    summary := some "the generated summary", created_at := "t0",
    completed_at := some "t1" }

/-- A concrete pending record, as the producer writes it. -/
def samplePending : ProcessingResult :=
  { job_id := "j1", filename := "a.pdf", parser := .pypdf,
    status := .pending, created_at := "t0" }

/-- A syntactically valid UUID string. -/
def uuidSample : String := "123e4567-e89b-12d3-a456-426614174000"

/-- The system after the producer accepted job j1. -/
def sysAfterEnqueue : Sys :=
  ⟨add_job_to_queue Sys.init.store "j1" "a.pdf" [1, 2] .pypdf "t0",
   Sys.init.queue ++ [("m1", msgJ1)], "j1" :: Sys.init.used⟩

/-- The system after the worker then processed the entry of job j1. -/
def sysAfterWork : Sys :=
  ⟨process_message oracleOk "t9" sysAfterEnqueue.store "m1" msgJ1, [],
   sysAfterEnqueue.used⟩

/-- A store holding only the pending record of job j1 and no payload. -/
def storePendingNoPayload : SysState := save_result SysState.empty samplePending

/-- The completed record produced by the concrete two-step run of
sysAfterWork. -/
def sampleCompletedT9 : ProcessingResult :=
  { job_id := "j1", filename := "a.pdf", parser := .pypdf,
    status := .completed, content := some "the extracted content",
    summary := some "the generated summary", created_at := "t0",
    completed_at := some "t9" }

theorem fromDict_dictExcludeNone (r : ProcessingResult) :
    fromDict (dictExcludeNone r) = some r := by
  obtain ⟨jid, fn, p, st, c, sm, er, ca, cm⟩ := r
  cases p <;> cases st <;> cases c <;> cases sm <;> cases er <;> cases cm <;> rfl

theorem resultKey_injective {a b : String} (h : resultKey a = resultKey b) :
    a = b := by
  unfold resultKey at h
  have hd := congrArg String.data h
  simp only [String.data_append] at hd
  exact String.ext (List.append_cancel_left hd)

theorem get_result_save_result_self (s : SysState) (r : ProcessingResult) :
    get_result (save_result s r) r.job_id = some r := by
  simp [get_result, save_result, KVStore.get, KVStore.set,
        fromDict_dictExcludeNone]

theorem get_result_save_result_other (s : SysState) (r : ProcessingResult)
    {j : String} (h : j ≠ r.job_id) :
    get_result (save_result s r) j = get_result s j := by
  have hk : resultKey j ≠ resultKey r.job_id := fun he => h (resultKey_injective he)
  simp [get_result, save_result, KVStore.get, KVStore.set, hk]

theorem get_result_save_result_of_eq (s : SysState) (r : ProcessingResult)
    {j : String} (h : j = r.job_id) :
    get_result (save_result s r) j = some r := by
  rw [h]
  exact get_result_save_result_self s r

theorem binary_save_result (s : SysState) (r : ProcessingResult) :
    (save_result s r).binary = s.binary := rfl

theorem acked_save_result (s : SysState) (r : ProcessingResult) :
    (save_result s r).acked = s.acked := rfl

theorem log_save_result (s : SysState) (r : ProcessingResult) :
    (save_result s r).log = s.log ++ [r] := rfl

theorem get_pdf_data_save_result (s : SysState) (r : ProcessingResult)
    (k : String) : get_pdf_data (save_result s r) k = get_pdf_data s k := rfl

theorem statusesOfLog_append (l1 l2 : List ProcessingResult) (j : String) :
    statusesOfLog (l1 ++ l2) j = statusesOfLog l1 j ++ statusesOfLog l2 j := by
  simp [statusesOfLog, List.filter_append]

theorem statusesOfLog_singleton_self (r : ProcessingResult) {j : String}
    (h : r.job_id = j) : statusesOfLog [r] j = [r.status] := by
  simp [statusesOfLog, List.filter, h]

theorem statusesOfLog_singleton_other (r : ProcessingResult) {j : String}
    (h : r.job_id ≠ j) : statusesOfLog [r] j = [] := by
  have hb : (r.job_id == j) = false := beq_false_of_ne h
  simp [statusesOfLog, List.filter, hb]

theorem geminiLoop_ok_some (attempts : Nat → AttemptOutcome) (retries : Nat) :
    ∀ remaining attempt x, 0 < remaining →
      geminiLoop attempts retries attempt remaining = .ok x →
      ∃ t, x = some t := by
  intro remaining
  induction remaining with
  | zero => intro attempt x h; omega
  | succ n ih =>
    intro attempt x _ hloop
    rw [geminiLoop] at hloop
    cases hatt : attempts attempt with
    | ok text =>
      rw [hatt] at hloop
      by_cases hlen : text.trim.length < 10 <;> simp [hlen] at hloop <;>
        exact ⟨_, hloop.symm⟩
    | err m => rw [hatt] at hloop; exact absurd hloop (by simp)
    | timeout m =>
      rw [hatt] at hloop
      by_cases hn : n = 0
      · simp [hn] at hloop
        exact ⟨_, hloop.symm⟩
      · simp [hn] at hloop
        exact ih (attempt + 1) x (Nat.pos_of_ne_zero hn) hloop

theorem process_with_gemini_ok_some (ext : ExtractorOracle)
    (pdf_data : Payload) (filename : String) (b : Bool)
    {x : Option String}
    (h : process_with_gemini ext pdf_data filename b 3 = .ok x) :
    ∃ t, x = some t :=
  geminiLoop_ok_some _ 3 3 1 x (by omega) h

theorem process_document_ok_shape (ext : ExtractorOracle)
    (pdf_data : Payload) (parser : ParserType) (filename : String)
    {c s : Option String}
    (h : process_document ext pdf_data parser filename = .ok (c, s)) :
    ∃ cv, c = some cv := by
  cases parser with
  | pypdf =>
    cases hc : ext.pypdfExtract pdf_data with
    | error e =>
      simp [process_document, hc, Bind.bind, Except.bind] at h
    | ok content =>
      cases hs : ext.summarize content with
      | error e =>
        simp [process_document, hc, hs, Bind.bind, Except.bind,
              Functor.map, Except.map] at h
      | ok summary =>
        simp [process_document, hc, hs, Bind.bind, Except.bind,
              Functor.map, Except.map, pure, Except.pure] at h
        exact ⟨content, h.1.symm⟩
  | gemini =>
    cases hc : process_with_gemini ext pdf_data filename false 3 with
    | error e =>
      simp [process_document, hc, Bind.bind, Except.bind] at h
    | ok content =>
      cases hs : process_with_gemini ext pdf_data filename true 3 with
      | error e =>
        simp [process_document, hc, hs, Bind.bind, Except.bind,
              Functor.map, Except.map] at h
      | ok summary =>
        simp [process_document, hc, hs, Bind.bind, Except.bind,
              Functor.map, Except.map, pure, Except.pure] at h
        obtain ⟨t, ht⟩ := process_with_gemini_ok_some ext pdf_data filename false hc
        exact ⟨t, h.1 ▸ ht⟩

theorem geminiLoop_all_timeout (attempts : Nat → AttemptOutcome)
    (retries : Nat) :
    ∀ remaining attempt, 0 < remaining →
      (∀ i, ∃ msg, attempts i = .timeout msg) →
      geminiLoop attempts retries attempt remaining =
        .ok (some (geminiTimeoutMsg retries)) := by
  intro remaining
  induction remaining with
  | zero => intro attempt h; omega
  | succ n ih =>
    intro attempt _ hto
    obtain ⟨msg, hmsg⟩ := hto attempt
    rw [geminiLoop, hmsg]
    by_cases hn : n = 0
    · simp [hn]
    · simp only [hn, if_false]
      exact ih (attempt + 1) (Nat.pos_of_ne_zero hn) hto

theorem process_with_gemini_all_timeout (ext : ExtractorOracle)
    (pdf_data : Payload) (filename : String) (b : Bool)
    (hto : ∀ i, ∃ msg, ext.geminiAttempts pdf_data filename b i = .timeout msg) :
    process_with_gemini ext pdf_data filename b 3 =
      .ok (some (geminiTimeoutMsg 3)) :=
  geminiLoop_all_timeout _ 3 3 1 (by omega) hto

theorem process_message_success (ext : ExtractorOracle) (now : String)
    (s : SysState) (mid : String) (m : Message) (r0 : ProcessingResult)
    (pd : Payload) (c : Option String) (sm : String)
    (hrec : get_result s m.job_id = some r0)
    (hpd : get_pdf_data s m.pdf_key = some pd)
    (hdoc : process_document ext pd m.parser m.filename = .ok (c, some sm)) :
    process_message ext now s mid m =
      acknowledge_message
        (save_result (save_result s { r0 with status := .processing })
          { job_id := m.job_id, filename := m.filename, parser := m.parser,
            status := .completed, content := c, summary := some sm,
            error := none, created_at := r0.created_at,
            completed_at := some now }) mid := by
  simp only [process_message, hrec, get_pdf_data_save_result, hpd, hdoc]

theorem process_message_fail (ext : ExtractorOracle) (now : String)
    (s : SysState) (mid : String) (m : Message) (r0 : ProcessingResult)
    (e : String)
    (hrec : get_result s m.job_id = some r0) (hjid : r0.job_id = m.job_id)
    (hfail : (get_pdf_data s m.pdf_key = none ∧ e = pdfNotFoundMsg) ∨
             (∃ pd, get_pdf_data s m.pdf_key = some pd ∧
                process_document ext pd m.parser m.filename = .error e) ∨
             (∃ pd oc, get_pdf_data s m.pdf_key = some pd ∧
                process_document ext pd m.parser m.filename = .ok (oc, none) ∧
                e = lenNoneMsg)) :
    process_message ext now s mid m =
      acknowledge_message
        (save_result (save_result s { r0 with status := .processing })
          { r0 with status := .failed, error := some e,
                    completed_at := some now }) mid := by
  have hre : get_result (save_result s { r0 with status := .processing })
      m.job_id = some { r0 with status := .processing } :=
    get_result_save_result_of_eq _ _ hjid.symm
  rcases hfail with ⟨hpd, he⟩ | ⟨pd, hpd, hdoc⟩ | ⟨pd, oc, hpd, hdoc, he⟩
  · subst he
    simp only [process_message, hrec, get_pdf_data_save_result, hpd,
               worker_fail, hre]
  · simp only [process_message, hrec, get_pdf_data_save_result, hpd, hdoc,
               worker_fail, hre]
  · subst he
    simp only [process_message, hrec, get_pdf_data_save_result, hpd, hdoc,
               worker_fail, hre]

theorem process_message_success_norec (ext : ExtractorOracle) (now : String)
    (s : SysState) (mid : String) (m : Message)
    (pd : Payload) (c : Option String) (sm : String)
    (hrec : get_result s m.job_id = none)
    (hpd : get_pdf_data s m.pdf_key = some pd)
    (hdoc : process_document ext pd m.parser m.filename = .ok (c, some sm)) :
    process_message ext now s mid m =
      acknowledge_message
        (save_result s
          { job_id := m.job_id, filename := m.filename, parser := m.parser,
            status := .completed, content := c, summary := some sm,
            error := none, created_at := now, completed_at := some now })
        mid := by
  simp only [process_message, hrec, hpd, hdoc]

theorem process_message_fail_norec (ext : ExtractorOracle) (now : String)
    (s : SysState) (mid : String) (m : Message)
    (hrec : get_result s m.job_id = none)
    (hfail : get_pdf_data s m.pdf_key = none ∨
             (∃ pd e, get_pdf_data s m.pdf_key = some pd ∧
                process_document ext pd m.parser m.filename = .error e) ∨
             (∃ pd oc, get_pdf_data s m.pdf_key = some pd ∧
                process_document ext pd m.parser m.filename = .ok (oc, none))) :
    process_message ext now s mid m = acknowledge_message s mid := by
  rcases hfail with hpd | ⟨pd, e, hpd, hdoc⟩ | ⟨pd, oc, hpd, hdoc⟩
  · simp only [process_message, hrec, hpd, worker_fail]
  · simp only [process_message, hrec, hpd, hdoc, worker_fail]
  · simp only [process_message, hrec, hpd, hdoc, worker_fail]

theorem get_result_add_job_self (s : SysState) (j fn : String) (pd : Payload)
    (p : ParserType) (now : String) :
    get_result (add_job_to_queue s j fn pd p now) j =
      some { job_id := j, filename := fn, parser := p, status := .pending,
             created_at := now } := by
  unfold add_job_to_queue
  exact get_result_save_result_of_eq _ _ rfl

theorem get_result_add_job_other (s : SysState) (j fn : String) (pd : Payload)
    (p : ParserType) (now : String) {q : String} (h : q ≠ j) :
    get_result (add_job_to_queue s j fn pd p now) q = get_result s q := by
  unfold add_job_to_queue
  rw [get_result_save_result_other _ _ h]
  rfl

theorem log_add_job (s : SysState) (j fn : String) (pd : Payload)
    (p : ParserType) (now : String) :
    (add_job_to_queue s j fn pd p now).log =
      s.log ++ [{ job_id := j, filename := fn, parser := p, status := .pending,
                  created_at := now }] := rfl

theorem get_result_acknowledge (s : SysState) (mid j : String) :
    get_result (acknowledge_message s mid) j = get_result s j := rfl

theorem log_acknowledge (s : SysState) (mid : String) :
    (acknowledge_message s mid).log = s.log := rfl

theorem sysInv_init : SysInv Sys.init := by
  refine ⟨?_, ?_, ?_, ?_, ?_⟩
  · intro j r hr
    simp [get_result, Sys.init, SysState.empty, KVStore.empty, KVStore.get] at hr
  · intro j
    simp [statusesFor, Sys.init, SysState.empty, statusesOfLog]
  · intro e he
    simp [Sys.init] at he
  · simp [Sys.init]
  · intro j _
    constructor
    · simp [get_result, Sys.init, SysState.empty, KVStore.empty, KVStore.get]
    · simp [statusesFor, Sys.init, SysState.empty, statusesOfLog]

theorem sysInv_work_aux (σ : Sys) (mid : String) (m : Message)
    (rest : List (String × Message))
    (hq : σ.queue = (mid, m) :: rest)
    (hinv : SysInv σ) (procRec termRec : ProcessingResult)
    (hprocjid : procRec.job_id = m.job_id)
    (hprocstat : procRec.status = .processing)
    (hstat1 : statusesFor σ m.job_id = [.pending])
    (hmused : m.job_id ∈ σ.used)
    (htermjid : termRec.job_id = m.job_id)
    (htermgood : goodRecord termRec)
    (htermrank : statusRank termRec.status = 2) :
    SysInv ⟨acknowledge_message
              (save_result (save_result σ.store procRec) termRec) mid,
            rest, σ.used⟩ := by
  obtain ⟨hrecs, hchain, hqueue, hnodup, hunused⟩ := hinv
  have hget_self :
      get_result (acknowledge_message
        (save_result (save_result σ.store procRec) termRec) mid) m.job_id =
        some termRec := by
    rw [get_result_acknowledge]
    exact get_result_save_result_of_eq _ _ htermjid.symm
  have hget_other : ∀ j, j ≠ m.job_id →
      get_result (acknowledge_message
        (save_result (save_result σ.store procRec) termRec) mid) j =
        get_result σ.store j := by
    intro j hj
    rw [get_result_acknowledge,
        get_result_save_result_other _ _ (fun he => hj (he.trans htermjid)),
        get_result_save_result_other _ _ (fun he => hj (he.trans hprocjid))]
  have hstatuses : ∀ j,
      statusesFor ⟨acknowledge_message
          (save_result (save_result σ.store procRec) termRec) mid,
        rest, σ.used⟩ j =
        statusesFor σ j ++ statusesOfLog [procRec] j ++
          statusesOfLog [termRec] j := by
    intro j
    show statusesOfLog
        (acknowledge_message
          (save_result (save_result σ.store procRec) termRec) mid).log j = _
    rw [log_acknowledge, log_save_result, log_save_result, List.append_assoc,
        ← List.append_assoc, statusesOfLog_append, statusesOfLog_append]
    rfl
  have hrest_ne : ∀ e ∈ rest, e.2.job_id ≠ m.job_id := by
    intro e he
    have hp := hq ▸ hnodup
    exact fun hcontra => (List.pairwise_cons.mp hp).1 e he hcontra.symm
  refine ⟨?_, ?_, ?_, ?_, ?_⟩
  · intro j r hr
    by_cases hj : j = m.job_id
    · subst hj
      rw [hget_self] at hr
      cases hr
      exact ⟨htermjid, htermgood⟩
    · rw [hget_other j hj] at hr
      exact hrecs j r hr
  · intro j
    rw [hstatuses j]
    by_cases hj : j = m.job_id
    · subst hj
      rw [hstat1, statusesOfLog_singleton_self procRec hprocjid,
          statusesOfLog_singleton_self termRec htermjid]
      have hl : ([ProcessingStatus.pending] ++ [procRec.status]) ++
          [termRec.status] = [.pending, procRec.status, termRec.status] := by
        simp
      rw [hl, hprocstat]
      refine List.chain'_cons.mpr
        ⟨by decide, List.chain'_cons.mpr ⟨?_, List.chain'_singleton _⟩⟩
      rw [htermrank]
      decide
    · rw [statusesOfLog_singleton_other procRec (hprocjid ▸ hj ∘ Eq.symm),
          statusesOfLog_singleton_other termRec (htermjid ▸ hj ∘ Eq.symm)]
      simp only [List.append_nil]
      exact hchain j
  · intro e he
    have heq : e ∈ σ.queue := by
      rw [hq]
      exact List.mem_cons_of_mem _ he
    obtain ⟨⟨hpk, r1, hr1, hr1pend, hr1jid, hr1fn, hr1p, hr1stat⟩, hused⟩ :=
      hqueue e heq
    have hne : e.2.job_id ≠ m.job_id := hrest_ne e he
    refine ⟨⟨hpk, r1, ?_, hr1pend, hr1jid, hr1fn, hr1p, ?_⟩, hused⟩
    · rw [hget_other _ hne]
      exact hr1
    · rw [hstatuses _,
          statusesOfLog_singleton_other procRec (fun hx => hne (hprocjid ▸ hx).symm ),
          statusesOfLog_singleton_other termRec (fun hx => hne (htermjid ▸ hx).symm )]
      simp only [List.append_nil]
      exact hr1stat
  · have hp := hq ▸ hnodup
    exact (List.pairwise_cons.mp hp).2
  · intro j hj
    have hne : j ≠ m.job_id := fun hx => hj (hx ▸ hmused)
    obtain ⟨hg, hs⟩ := hunused j hj
    constructor
    · rw [hget_other j hne]
      exact hg
    · rw [hstatuses j,
          statusesOfLog_singleton_other procRec (fun hx => hne (hprocjid ▸ hx).symm),
          statusesOfLog_singleton_other termRec (fun hx => hne (htermjid ▸ hx).symm)]
      simp only [List.append_nil]
      exact hs

theorem sysInv_enqueue (σ : Sys) (job_id filename : String)
    (pdf_data : Payload) (parser : ParserType) (now mid : String)
    (hfresh : job_id ∉ σ.used) (hinv : SysInv σ) :
    SysInv ⟨add_job_to_queue σ.store job_id filename pdf_data parser now,
            σ.queue ++ [(mid, ⟨job_id, filename, parser, pdfKey job_id⟩)],
            job_id :: σ.used⟩ := by
  obtain ⟨hrecs, hchain, hqueue, hnodup, hunused⟩ := hinv
  obtain ⟨hnone, hstat0⟩ := hunused job_id hfresh
  have hqueue_ne : ∀ e ∈ σ.queue, e.2.job_id ≠ job_id := by
    intro e he hcontra
    exact hfresh (hcontra ▸ (hqueue e he).2)
  have hnewrec :
      get_result (add_job_to_queue σ.store job_id filename pdf_data parser now)
        job_id =
        some { job_id := job_id, filename := filename, parser := parser,
               status := .pending, created_at := now } :=
    get_result_add_job_self σ.store job_id filename pdf_data parser now
  have hstatuses : ∀ j,
      statusesFor
        ⟨add_job_to_queue σ.store job_id filename pdf_data parser now,
         σ.queue ++ [(mid, ⟨job_id, filename, parser, pdfKey job_id⟩)],
         job_id :: σ.used⟩ j =
        statusesFor σ j ++
          statusesOfLog
            [{ job_id := job_id, filename := filename, parser := parser,
               status := .pending, created_at := now }] j := by
    intro j
    show statusesOfLog
        (add_job_to_queue σ.store job_id filename pdf_data parser now).log j = _
    rw [log_add_job, statusesOfLog_append]
    rfl
  refine ⟨?_, ?_, ?_, ?_, ?_⟩
  · intro j r hr
    by_cases hj : j = job_id
    · subst hj
      rw [hnewrec] at hr
      cases hr
      refine ⟨rfl, ?_⟩
      simp [goodRecord]
    · rw [get_result_add_job_other _ _ _ _ _ _ hj] at hr
      exact hrecs j r hr
  · intro j
    rw [hstatuses j]
    by_cases hj : j = job_id
    · subst hj
      rw [hstat0, statusesOfLog_singleton_self _ rfl]
      simp only [List.nil_append]
      exact List.chain'_singleton _
    · rw [statusesOfLog_singleton_other _ (fun hx => hj hx.symm)]
      simp only [List.append_nil]
      exact hchain j
  · intro e he
    rcases List.mem_append.mp he with hold | hnew
    · obtain ⟨⟨hpk, r1, hr1, hr1pend, hr1jid, hr1fn, hr1p, hr1stat⟩, hused⟩ :=
        hqueue e hold
      have hne : e.2.job_id ≠ job_id := hqueue_ne e hold
      refine ⟨⟨hpk, r1, ?_, hr1pend, hr1jid, hr1fn, hr1p, ?_⟩,
              List.mem_cons_of_mem _ hused⟩
      · rw [get_result_add_job_other _ _ _ _ _ _ hne]
        exact hr1
      · rw [hstatuses _, statusesOfLog_singleton_other _
              (fun hx => hne (by exact hx.symm))]
        simp only [List.append_nil]
        exact hr1stat
    · have he2 : e = (mid, ⟨job_id, filename, parser, pdfKey job_id⟩) := by
        simpa using hnew
      subst he2
      refine ⟨⟨rfl, _, hnewrec, rfl, rfl, rfl, rfl, ?_⟩,
              List.mem_cons_self _ _⟩
      rw [hstatuses _, hstat0, statusesOfLog_singleton_self _ rfl]
      simp
  · refine List.pairwise_append.mpr ⟨hnodup, List.pairwise_singleton _ _, ?_⟩
    intro a ha b hb
    have hb2 : b = (mid, ⟨job_id, filename, parser, pdfKey job_id⟩) := by
      simpa using hb
    subst hb2
    exact hqueue_ne a ha
  · intro j hj
    have hne : j ≠ job_id := fun hx => hj (hx ▸ List.mem_cons_self _ _)
    have hj2 : j ∉ σ.used := fun hx => hj (List.mem_cons_of_mem _ hx)
    obtain ⟨hg, hs⟩ := hunused j hj2
    constructor
    · rw [get_result_add_job_other _ _ _ _ _ _ hne]
      exact hg
    · rw [hstatuses j, statusesOfLog_singleton_other _ (fun hx => hne hx.symm)]
      simp only [List.append_nil]
      exact hs

theorem goodRecord_failed (r0 : ProcessingResult) (e now : String)
    (hc : r0.content = none) (hs : r0.summary = none) :
    goodRecord { r0 with status := .failed, error := some e,
                         completed_at := some now } := by
  refine ⟨fun h => ?_, fun _ => ⟨⟨e, rfl⟩, hc, hs⟩, fun h => ?_⟩
  · exact ProcessingStatus.noConfusion h
  · rcases h with h | h <;> exact ProcessingStatus.noConfusion h

theorem sysInv_step {σ σ' : Sys} (h : Step σ σ') (hinv : SysInv σ) :
    SysInv σ' := by
  cases h with
  | enqueue job_id filename pdf_data parser now mid hfresh =>
    exact sysInv_enqueue σ job_id filename pdf_data parser now mid hfresh hinv
  | work ext now mid m rest hq =>
    obtain ⟨⟨hpk, r0, hr0, hr0pend, hr0jid, hr0fn, hr0p, hstat1⟩, hmused⟩ :=
      hinv.2.2.1 (mid, m) (by rw [hq]; exact List.mem_cons_self _ _)
    have hnones := ((hinv.1 m.job_id r0 hr0).2).2.2 (Or.inl hr0pend)
    cases hpd : get_pdf_data σ.store m.pdf_key with
    | none =>
      rw [process_message_fail ext now σ.store mid m r0 pdfNotFoundMsg hr0
            hr0jid (Or.inl ⟨hpd, rfl⟩)]
      exact sysInv_work_aux σ mid m rest hq hinv _ _ hr0jid rfl hstat1 hmused
        hr0jid (goodRecord_failed r0 _ now hnones.1 hnones.2.1) rfl
    | some pd =>
      cases hdoc : process_document ext pd m.parser m.filename with
      | error e =>
        rw [process_message_fail ext now σ.store mid m r0 e hr0 hr0jid
              (Or.inr (Or.inl ⟨pd, hpd, hdoc⟩))]
        exact sysInv_work_aux σ mid m rest hq hinv _ _ hr0jid rfl hstat1 hmused
          hr0jid (goodRecord_failed r0 _ now hnones.1 hnones.2.1) rfl
      | ok val =>
        obtain ⟨c, osm⟩ := val
        cases osm with
        | none =>
          rw [process_message_fail ext now σ.store mid m r0 lenNoneMsg hr0
                hr0jid (Or.inr (Or.inr ⟨pd, c, hpd, hdoc, rfl⟩))]
          exact sysInv_work_aux σ mid m rest hq hinv _ _ hr0jid rfl hstat1
            hmused hr0jid (goodRecord_failed r0 _ now hnones.1 hnones.2.1) rfl
        | some sm =>
          obtain ⟨cv, hcv⟩ := process_document_ok_shape ext pd m.parser
            m.filename hdoc
          rw [process_message_success ext now σ.store mid m r0 pd c sm hr0
                hpd hdoc]
          refine sysInv_work_aux σ mid m rest hq hinv _ _ hr0jid rfl hstat1
            hmused rfl ?_ rfl
          refine ⟨fun _ => ⟨⟨cv, hcv⟩, ⟨sm, rfl⟩, rfl⟩, fun h => ?_,
                  fun h => ?_⟩
          · exact ProcessingStatus.noConfusion h
          · rcases h with h | h <;> exact ProcessingStatus.noConfusion h

theorem sysInv_reachable {σ : Sys} (h : Reachable σ) : SysInv σ := by
  unfold Reachable at h
  induction h with
  | refl => exact sysInv_init
  | tail _ hstep ih => exact sysInv_step hstep ih

theorem pollLoopAux_elapsed_ge (obs : Nat → Option ProcessingResult)
    (fuel i elapsed : Nat) (last : Option ProcessingResult)
    (h : ¬ elapsed < queryTimeout) :
    pollLoopAux obs fuel i elapsed last = .finished last := by
  cases fuel with
  | zero => rfl
  | succ n =>
    rw [pollLoopAux]
    simp [h]

theorem pollLoopAux_terminal_first (obs : Nat → Option ProcessingResult) :
    ∀ fuel i elapsed last k r,
      queryTimeout ≤ elapsed + queryPollInterval * fuel →
      i ≤ k →
      elapsed + queryPollInterval * (k - i) < queryTimeout →
      obs k = some r → (r.status = .completed ∨ r.status = .failed) →
      (∀ j, i ≤ j → j < k →
         ∃ q, obs j = some q ∧ ¬ (q.status = .completed ∨ q.status = .failed)) →
      pollLoopAux obs fuel i elapsed last = .finished (some r) := by
  intro fuel
  induction fuel with
  | zero =>
    intro i elapsed last k r hfuel hik hwin hk hterm hpre
    exfalso
    simp only [queryTimeout, queryPollInterval] at hfuel hwin
    omega
  | succ n ih =>
    intro i elapsed last k r hfuel hik hwin hk hterm hpre
    have helapsed : elapsed < queryTimeout := by
      simp only [queryTimeout, queryPollInterval] at hwin ⊢
      omega
    rw [pollLoopAux, if_pos helapsed]
    rcases Nat.eq_or_lt_of_le hik with heq | hlt
    · subst heq
      simp only [hk]
      rw [if_pos hterm]
    · obtain ⟨q, hq, hnt⟩ := hpre i le_rfl hlt
      simp only [hq]
      rw [if_neg hnt]
      refine ih (i + 1) (elapsed + queryPollInterval) (some q) k r ?_ hlt ?_
        hk hterm (fun j h1 h2 => hpre j (Nat.le_of_succ_le h1) h2)
      · simp only [queryTimeout, queryPollInterval] at hfuel ⊢
        omega
      · simp only [queryTimeout, queryPollInterval] at hwin ⊢
        omega

theorem pollLoopAux_absent_first (obs : Nat → Option ProcessingResult) :
    ∀ fuel i elapsed last k,
      queryTimeout ≤ elapsed + queryPollInterval * fuel →
      i ≤ k →
      elapsed + queryPollInterval * (k - i) < queryTimeout →
      obs k = none →
      (∀ j, i ≤ j → j < k →
         ∃ q, obs j = some q ∧ ¬ (q.status = .completed ∨ q.status = .failed)) →
      pollLoopAux obs fuel i elapsed last = .found404 := by
  intro fuel
  induction fuel with
  | zero =>
    intro i elapsed last k hfuel hik hwin hk hpre
    exfalso
    simp only [queryTimeout, queryPollInterval] at hfuel hwin
    omega
  | succ n ih =>
    intro i elapsed last k hfuel hik hwin hk hpre
    have helapsed : elapsed < queryTimeout := by
      simp only [queryTimeout, queryPollInterval] at hwin ⊢
      omega
    rw [pollLoopAux, if_pos helapsed]
    rcases Nat.eq_or_lt_of_le hik with heq | hlt
    · subst heq
      simp only [hk]
    · obtain ⟨q, hq, hnt⟩ := hpre i le_rfl hlt
      simp only [hq]
      rw [if_neg hnt]
      refine ih (i + 1) (elapsed + queryPollInterval) (some q) k ?_ hlt ?_
        hk (fun j h1 h2 => hpre j (Nat.le_of_succ_le h1) h2)
      · simp only [queryTimeout, queryPollInterval] at hfuel ⊢
        omega
      · simp only [queryTimeout, queryPollInterval] at hwin ⊢
        omega

theorem pollLoopAux_all_nonterminal (obs : Nat → Option ProcessingResult) :
    ∀ fuel i elapsed last,
      queryTimeout ≤ elapsed + queryPollInterval * fuel →
      elapsed < queryTimeout →
      (∀ j, i ≤ j → elapsed + queryPollInterval * (j - i) < queryTimeout →
         ∃ q, obs j = some q ∧ ¬ (q.status = .completed ∨ q.status = .failed)) →
      ∃ k q, i ≤ k ∧ elapsed + queryPollInterval * (k - i) < queryTimeout ∧
        obs k = some q ∧ ¬ (q.status = .completed ∨ q.status = .failed) ∧
        pollLoopAux obs fuel i elapsed last = .finished (some q) := by
  intro fuel
  induction fuel with
  | zero =>
    intro i elapsed last hfuel helapsed _
    exfalso
    simp only [queryTimeout, queryPollInterval] at hfuel helapsed
    omega
  | succ n ih =>
    intro i elapsed last hfuel helapsed hpre
    obtain ⟨q, hq, hnt⟩ := hpre i le_rfl (by simpa using helapsed)
    rw [pollLoopAux, if_pos helapsed]
    simp only [hq]
    rw [if_neg hnt]
    by_cases hnext : elapsed + queryPollInterval < queryTimeout
    · obtain ⟨k, q2, hk1, hk2, hk3, hk4, hk5⟩ :=
        ih (i + 1) (elapsed + queryPollInterval) (some q)
          (by simp only [queryTimeout, queryPollInterval] at hfuel ⊢; omega)
          hnext
          (fun j h1 h2 => hpre j (Nat.le_of_succ_le h1)
            (by simp only [queryTimeout, queryPollInterval] at h2 ⊢; omega))
      refine ⟨k, q2, Nat.le_of_succ_le hk1, ?_, hk3, hk4, hk5⟩
      simp only [queryTimeout, queryPollInterval] at hk2 ⊢
      omega
    · refine ⟨i, q, le_rfl, by simpa using helapsed, hq, hnt, ?_⟩
      exact pollLoopAux_elapsed_ge obs n (i + 1) (elapsed + queryPollInterval)
        (some q) hnext

theorem pollLoopAux_never_none (obs : Nat → Option ProcessingResult) :
    ∀ fuel i elapsed last,
      queryTimeout ≤ elapsed + queryPollInterval * fuel →
      pollLoopAux obs fuel i elapsed last = .finished none →
      ¬ elapsed < queryTimeout ∧ last = none := by
  intro fuel
  induction fuel with
  | zero =>
    intro i elapsed last hfuel hres
    constructor
    · simp only [queryTimeout, queryPollInterval] at hfuel ⊢
      omega
    · cases last with
      | none => rfl
      | some r => exact absurd hres (by simp [pollLoopAux])
  | succ n ih =>
    intro i elapsed last hfuel hres
    by_cases helapsed : elapsed < queryTimeout
    · exfalso
      rw [pollLoopAux, if_pos helapsed] at hres
      cases hq : obs i with
      | none =>
        simp only [hq] at hres
        exact LoopResult.noConfusion hres
      | some q =>
        simp only [hq] at hres
        by_cases ht : q.status = .completed ∨ q.status = .failed
        · rw [if_pos ht] at hres
          simp at hres
        · rw [if_neg ht] at hres
          have := ih (i + 1) (elapsed + queryPollInterval) (some q)
            (by simp only [queryTimeout, queryPollInterval] at hfuel ⊢; omega)
            hres
          simp at this
    · rw [pollLoopAux, if_neg helapsed] at hres
      cases hres
      exact ⟨helapsed, rfl⟩

theorem worker_fail_acked (s : SysState) (mid : String) (m : Message)
    (e now : String) :
    (worker_fail s mid m e now).acked = mid :: s.acked := by
  unfold worker_fail
  cases get_result s m.job_id <;> rfl

/-- C1: every execution path of process_message acknowledges the message id
of the entry being processed, on the success path (terminal completed) as
well as on every failure path (terminal failed), including when the status
record is absent; in the pure model, where the store operations themselves
cannot fail, no path skips the acknowledgment. -/
theorem C1_worker_always_acknowledges (ext : ExtractorOracle) (now : String)
    (s : SysState) (message_id : String) (m : Message) :
    (process_message ext now s message_id m).acked = message_id :: s.acked := by
  cases hrec : get_result s m.job_id with
  | none =>
    simp only [process_message, hrec]
    cases hpd : get_pdf_data s m.pdf_key with
    | none =>
      simp only [hpd]
      rw [worker_fail_acked]
    | some pd =>
      simp only [hpd]
      cases hdoc : process_document ext pd m.parser m.filename with
      | error e =>
        simp only [hdoc]
        rw [worker_fail_acked]
      | ok val =>
        obtain ⟨c, osm⟩ := val
        cases osm with
        | none =>
          simp only [hdoc]
          rw [worker_fail_acked]
        | some sm =>
          simp only [hdoc]
          rfl
  | some r0 =>
    simp only [process_message, hrec]
    cases hpd : get_pdf_data (save_result s { r0 with status := .processing })
        m.pdf_key with
    | none =>
      simp only [hpd]
      rw [worker_fail_acked]
      rfl
    | some pd =>
      simp only [hpd]
      cases hdoc : process_document ext pd m.parser m.filename with
      | error e =>
        simp only [hdoc]
        rw [worker_fail_acked]
        rfl
      | ok val =>
        obtain ⟨c, osm⟩ := val
        cases osm with
        | none =>
          simp only [hdoc]
          rw [worker_fail_acked]
          rfl
        | some sm =>
          simp only [hdoc]
          rfl

/-- C10: saving any record with save_result and reading the same job id back
with get_result returns exactly the record that was saved: the
exclude-none JSON serialization and the pydantic deserialization compose to
the identity. -/
theorem C10_save_get_roundtrip (s : SysState) (r : ProcessingResult) :
    get_result (save_result s r) r.job_id = some r :=
  get_result_save_result_self s r

/-- C2 counterexample: a queue entry whose job has no status record in the
store (for example after TTL expiry) and no payload: processing fails, the
entry is acknowledged, but no record at all is persisted, in particular no
record with status failed, contradicting the claim that every processing
failure persists a failed record. -/
theorem C2_counterexample_no_record_no_failed_write :
    get_result (process_message oracleOk "t1" SysState.empty "m1" msgJ1)
        "j1" = none ∧
    (process_message oracleOk "t1" SysState.empty "m1" msgJ1).acked =
      ["m1"] := by
  constructor <;> rfl

/-- C2 (amended): for every entry whose processing step fails, payload fetch
and extraction errors alike, and whose job still has a status record at
failure time, the worker persists that record with status failed, the error
message of the failure and completed_at set to now, and still acknowledges
the entry; when the record is absent only the acknowledgment happens. -/
theorem C2_failed_write_when_record_present (ext : ExtractorOracle)
    (now : String) (s : SysState) (mid : String) (m : Message)
    (r0 : ProcessingResult) (e : String)
    (hrec : get_result s m.job_id = some r0) (hjid : r0.job_id = m.job_id)
    (hfail : (get_pdf_data s m.pdf_key = none ∧ e = pdfNotFoundMsg) ∨
             (∃ pd, get_pdf_data s m.pdf_key = some pd ∧
                process_document ext pd m.parser m.filename = .error e) ∨
             (∃ pd oc, get_pdf_data s m.pdf_key = some pd ∧
                process_document ext pd m.parser m.filename = .ok (oc, none) ∧
                e = lenNoneMsg)) :
    get_result (process_message ext now s mid m) m.job_id =
      some { r0 with status := .failed, error := some e,
                     completed_at := some now } ∧
    (process_message ext now s mid m).acked = mid :: s.acked := by
  rw [process_message_fail ext now s mid m r0 e hrec hjid hfail]
  constructor
  · rw [get_result_acknowledge]
    exact get_result_save_result_of_eq _ _ hjid.symm
  · rfl

/-- C2 witness: a job with its pending record present but its payload
absent reaches failed with the payload-not-found message and the entry is
acknowledged. -/
theorem C2_witness :
    get_result (process_message oracleOk "t2" storePendingNoPayload "m1" msgJ1)
        "j1" =
      some { samplePending with status := .failed,
                                error := some pdfNotFoundMsg,
                                completed_at := some "t2" } ∧
    (process_message oracleOk "t2" storePendingNoPayload "m1" msgJ1).acked =
      ["m1"] := by
  have h := C2_failed_write_when_record_present oracleOk "t2"
    storePendingNoPayload "m1" msgJ1 samplePending pdfNotFoundMsg rfl rfl
    (Or.inl ⟨rfl, rfl⟩)
  exact ⟨h.1, h.2⟩

/-- C6 counterexample: after the producer stores job j1, nothing is stored
under the keys payload:j1 or status:j1 claimed by the spec; the payload
actually lives under pdf:j1, so the claimed key layout is wrong. -/
theorem C6_counterexample_claimed_keys :
    (add_job_to_queue SysState.empty "j1" "a.pdf" [1] .pypdf "t0").binary.get
        ("payload:" ++ "j1") = none ∧
    (add_job_to_queue SysState.empty "j1" "a.pdf" [1] .pypdf "t0").text.get
        ("status:" ++ "j1") = none ∧
    (add_job_to_queue SysState.empty "j1" "a.pdf" [1] .pypdf "t0").binary.get
        ("pdf:" ++ "j1") = some [1] := by
  refine ⟨rfl, rfl, rfl⟩

/-- C6 (amended): the Payload Store key is the string pdf: followed by the
job id, the Status Store key is the string result: followed by the job id,
and both the payload write and every status-record write carry a fixed TTL
of 3600 seconds (one hour) recorded at write time. -/
theorem C6_key_layout_and_ttl :
    (∀ (s : SysState) (job_id filename : String) (pdf_data : Payload)
       (parser : ParserType) (now : String),
       (add_job_to_queue s job_id filename pdf_data parser now).binary.data
           ("pdf:" ++ job_id) = some (pdf_data, 3600)) ∧
    (∀ (s : SysState) (r : ProcessingResult),
       (save_result s r).text.data ("result:" ++ r.job_id) =
         some (dictExcludeNone r, 3600)) := by
  constructor
  · intro s job_id filename pdf_data parser now
    simp [add_job_to_queue, save_result, KVStore.set, pdfKey]
  · intro s r
    simp [save_result, KVStore.set, resultKey]

theorem reachable_sysAfterEnqueue : Reachable sysAfterEnqueue :=
  Relation.ReflTransGen.tail Relation.ReflTransGen.refl
    (Step.enqueue Sys.init "j1" "a.pdf" [1, 2] .pypdf "t0" "m1"
      (by simp [Sys.init]))

theorem reachable_sysAfterWork : Reachable sysAfterWork :=
  Relation.ReflTransGen.tail reachable_sysAfterEnqueue
    (Step.work sysAfterEnqueue oracleOk "t9" "m1" msgJ1 [] rfl)

/-- C3: in every reachable system state, every stored status record that is
terminal satisfies exactly one of the two field groups: a completed record
has content and summary present and no error, and a failed record has an
error present and neither content nor summary; never both groups and never
neither. -/
theorem C3_terminal_exactly_one_group (σ : Sys) (h : Reachable σ)
    (j : String) (r : ProcessingResult)
    (hr : get_result σ.store j = some r)
    (hterm : r.status = .completed ∨ r.status = .failed) :
    ((∃ c, r.content = some c) ∧ (∃ sm, r.summary = some sm) ∧
       r.error = none ∧ r.status = .completed) ∨
    ((∃ e, r.error = some e) ∧ r.content = none ∧ r.summary = none ∧
       r.status = .failed) := by
  have hg := (sysInv_reachable h).1 j r hr
  rcases hterm with ht | ht
  · obtain ⟨hc, hsm, he⟩ := hg.2.1 ht
    exact Or.inl ⟨hc, hsm, he, ht⟩
  · obtain ⟨he, hc, hsm⟩ := hg.2.2.1 ht
    exact Or.inr ⟨he, hc, hsm, ht⟩

/-- C3 witness: the concrete two-step run (enqueue j1, then the worker
completes it) yields a stored completed record falling in the first field
group. -/
theorem C3_witness :
    ((∃ c, (sampleCompletedT9 : ProcessingResult).content = some c) ∧
       (∃ sm, sampleCompletedT9.summary = some sm) ∧
       sampleCompletedT9.error = none ∧
       sampleCompletedT9.status = .completed) ∨
    ((∃ e, sampleCompletedT9.error = some e) ∧
       sampleCompletedT9.content = none ∧ sampleCompletedT9.summary = none ∧
       sampleCompletedT9.status = .failed) :=
  C3_terminal_exactly_one_group sysAfterWork reachable_sysAfterWork "j1"
    sampleCompletedT9 rfl (Or.inl rfl)

/-- C7: when processing succeeds for an entry whose status record matches
the entry (as every producer-written record does), the persisted completed
record keeps the original created_at, job_id, filename and parser, carries
exactly the extractor content and summary, sets completed_at to now, and
leaves every other piece of job state untouched: other job records and the
whole Payload Store are unchanged by the success write. -/
theorem C7_success_write_frame (ext : ExtractorOracle) (now : String)
    (s : SysState) (mid : String) (m : Message) (r0 : ProcessingResult)
    (pd : Payload) (c : Option String) (sm : String)
    (hrec : get_result s m.job_id = some r0)
    (hjid : r0.job_id = m.job_id) (hfn : r0.filename = m.filename)
    (hp : r0.parser = m.parser) (her : r0.error = none)
    (hpd : get_pdf_data s m.pdf_key = some pd)
    (hdoc : process_document ext pd m.parser m.filename = .ok (c, some sm)) :
    get_result (process_message ext now s mid m) m.job_id =
      some { r0 with status := .completed, content := c, summary := some sm,
                     completed_at := some now } ∧
    (∀ j, j ≠ m.job_id →
       get_result (process_message ext now s mid m) j = get_result s j) ∧
    (process_message ext now s mid m).binary = s.binary := by
  rw [process_message_success ext now s mid m r0 pd c sm hrec hpd hdoc]
  have hrecEq : ({ job_id := m.job_id, filename := m.filename,
                   parser := m.parser, status := .completed, content := c,
                   summary := some sm, error := none,
                   created_at := r0.created_at,
                   completed_at := some now } : ProcessingResult) =
      { r0 with status := .completed, content := c, summary := some sm,
                completed_at := some now } := by
    obtain ⟨jid0, fn0, p0, st0, c0, sm0, er0, ca0, cm0⟩ := r0
    simp only at hjid hfn hp her
    rw [← hjid, ← hfn, ← hp, her]
  refine ⟨?_, ?_, rfl⟩
  · rw [get_result_acknowledge, get_result_save_result_of_eq _ _ rfl, hrecEq]
  · intro j hj
    rw [get_result_acknowledge,
        get_result_save_result_other
          (save_result s { r0 with status := .processing })
          { job_id := m.job_id, filename := m.filename, parser := m.parser,
            status := .completed, content := c, summary := some sm,
            error := none, created_at := r0.created_at,
            completed_at := some now } hj,
        get_result_save_result_other s { r0 with status := .processing }
          (fun he => hj (he.trans hjid))]

/-- C7 witness: in the concrete enqueued state for j1, a successful pypdf
run persists the completed record preserving created_at t0 and the entry
fields, while an unrelated job id and the Payload Store stay unchanged. -/
theorem C7_witness :
    get_result (process_message oracleOk "t9" sysAfterEnqueue.store "m1" msgJ1)
        "j1" =
      some { samplePending with status := .completed,
                                content := some "the extracted content",
                                summary := some "the generated summary",
                                completed_at := some "t9" } ∧
    get_result (process_message oracleOk "t9" sysAfterEnqueue.store "m1" msgJ1)
        "j2" = get_result sysAfterEnqueue.store "j2" ∧
    (process_message oracleOk "t9" sysAfterEnqueue.store "m1" msgJ1).binary =
      sysAfterEnqueue.store.binary := by
  have h := C7_success_write_frame oracleOk "t9" sysAfterEnqueue.store "m1"
    msgJ1 samplePending [1, 2] (some "the extracted content")
    "the generated summary" rfl rfl rfl rfl rfl rfl rfl
  exact ⟨h.1, h.2.1 "j2" (by decide), h.2.2⟩

/-- C9: when every Gemini attempt times out, process_with_gemini with the
default three retries returns the fixed timeout apology text as an ordinary
value instead of raising, so the worker stores the job as completed with
that text as both content and summary rather than as failed. -/
theorem C9_gemini_timeout_completes (ext : ExtractorOracle) (now : String)
    (s : SysState) (mid : String) (m : Message) (pd : Payload)
    (hparser : m.parser = .gemini)
    (hpd : get_pdf_data s m.pdf_key = some pd)
    (ht : ∀ (b : Bool) (i : Nat),
       ∃ msg, ext.geminiAttempts pd m.filename b i = .timeout msg) :
    process_with_gemini ext pd m.filename false 3 =
      .ok (some (geminiTimeoutMsg 3)) ∧
    process_with_gemini ext pd m.filename true 3 =
      .ok (some (geminiTimeoutMsg 3)) ∧
    ∃ ca, get_result (process_message ext now s mid m) m.job_id =
      some { job_id := m.job_id, filename := m.filename, parser := m.parser,
             status := .completed, content := some (geminiTimeoutMsg 3),
             summary := some (geminiTimeoutMsg 3), error := none,
             created_at := ca, completed_at := some now } := by
  have h1 := process_with_gemini_all_timeout ext pd m.filename false (ht false)
  have h2 := process_with_gemini_all_timeout ext pd m.filename true (ht true)
  have hdoc : process_document ext pd m.parser m.filename =
      .ok (some (geminiTimeoutMsg 3), some (geminiTimeoutMsg 3)) := by
    rw [hparser]
    simp [process_document, h1, h2, Bind.bind, Except.bind, pure, Except.pure]
  refine ⟨h1, h2, ?_⟩
  cases hrec : get_result s m.job_id with
  | none =>
    refine ⟨now, ?_⟩
    rw [process_message_success_norec ext now s mid m pd _ _ hrec hpd hdoc,
        get_result_acknowledge, get_result_save_result_of_eq _ _ rfl]
  | some r0 =>
    refine ⟨r0.created_at, ?_⟩
    rw [process_message_success ext now s mid m r0 pd _ _ hrec hpd hdoc,
        get_result_acknowledge, get_result_save_result_of_eq _ _ rfl]

/-- C9 witness: the concrete all-timeout oracle on an enqueued gemini job
yields the timeout text and a completed record carrying it. -/
theorem C9_witness :
    process_with_gemini oracleTimeout [3] "b.pdf" false 3 =
      .ok (some (geminiTimeoutMsg 3)) ∧
    process_with_gemini oracleTimeout [3] "b.pdf" true 3 =
      .ok (some (geminiTimeoutMsg 3)) ∧
    ∃ ca, get_result
        (process_message oracleTimeout "t5"
          (add_job_to_queue SysState.empty "j2" "b.pdf" [3] .gemini "t0")
          "m2" msgJ2) "j2" =
      some { job_id := "j2", filename := "b.pdf", parser := .gemini,
             status := .completed, content := some (geminiTimeoutMsg 3),
             summary := some (geminiTimeoutMsg 3), error := none,
             created_at := ca, completed_at := some "t5" } :=
  C9_gemini_timeout_completes oracleTimeout "t5"
    (add_job_to_queue SysState.empty "j2" "b.pdf" [3] .gemini "t0")
    "m2" msgJ2 [3] rfl rfl (fun _ _ => ⟨"read timed out", rfl⟩)

/-- C5: for a well-formed job id, the status query returns the record as a
normal response the moment a poll observes a terminal status; it raises the
not-found signal the moment a poll observes the record absent; if every
poll of the whole wait window observes a record that is still non-terminal,
the query returns such a currently observed non-terminal record as a normal
response rather than an error; and a request-timeout signal can only arise
when no record was observed at any poll of the window (in fact that branch
is unreachable, since the first absent observation already raises
not-found). -/
theorem C5_status_query_polling (job_id : String)
    (obs : Nat → Option ProcessingResult)
    (hempty : pyStrip job_id ≠ "") (hvalid : isValidUUID job_id = true) :
    (∀ k r, queryPollInterval * k < queryTimeout → obs k = some r →
       (r.status = .completed ∨ r.status = .failed) →
       (∀ j, j < k → ∃ q, obs j = some q ∧
          ¬ (q.status = .completed ∨ q.status = .failed)) →
       get_job_status job_id obs = .ok (mkStatusResponse r)) ∧
    (∀ k, queryPollInterval * k < queryTimeout → obs k = none →
       (∀ j, j < k → ∃ q, obs j = some q ∧
          ¬ (q.status = .completed ∨ q.status = .failed)) →
       get_job_status job_id obs = .notFound "Job not found") ∧
    ((∀ j, queryPollInterval * j < queryTimeout → ∃ q, obs j = some q ∧
        ¬ (q.status = .completed ∨ q.status = .failed)) →
       ∃ k q, queryPollInterval * k < queryTimeout ∧ obs k = some q ∧
         ¬ (q.status = .completed ∨ q.status = .failed) ∧
         get_job_status job_id obs = .ok (mkStatusResponse q)) ∧
    (get_job_status job_id obs =
        .requestTimeout "Request timeout: Job processing took too long" →
       ∀ j, queryPollInterval * j < queryTimeout → obs j = none) := by
  have hgj : get_job_status job_id obs =
      match pollLoopAux obs queryTimeout 0 0 none with
      | .found404 => .notFound "Job not found"
      | .finished none =>
          .requestTimeout "Request timeout: Job processing took too long"
      | .finished (some r) => .ok (mkStatusResponse r) := by
    unfold get_job_status
    rw [if_neg hempty, if_neg (by simp [hvalid])]
  refine ⟨?_, ?_, ?_, ?_⟩
  · intro k r hk hobs hterm hpre
    rw [hgj,
        pollLoopAux_terminal_first obs queryTimeout 0 0 none k r (by decide)
          (Nat.zero_le k) (by simpa using hk) hobs hterm
          (fun j _ h2 => hpre j h2)]
  · intro k hk hobs hpre
    rw [hgj,
        pollLoopAux_absent_first obs queryTimeout 0 0 none k (by decide)
          (Nat.zero_le k) (by simpa using hk) hobs
          (fun j _ h2 => hpre j h2)]
  · intro hall
    obtain ⟨k, q, _, hk2, hk3, hk4, hk5⟩ :=
      pollLoopAux_all_nonterminal obs queryTimeout 0 0 none (by decide)
        (by decide) (fun j _ h2 => hall j (by simpa using h2))
    refine ⟨k, q, by simpa using hk2, hk3, hk4, ?_⟩
    rw [hgj, hk5]
  · intro habs j hj
    exfalso
    rw [hgj] at habs
    cases hp : pollLoopAux obs queryTimeout 0 0 none with
    | found404 =>
      rw [hp] at habs
      exact QueryOutcome.noConfusion habs
    | finished res =>
      cases res with
      | some r =>
        rw [hp] at habs
        exact QueryOutcome.noConfusion habs
      | none =>
        have hnn := pollLoopAux_never_none obs queryTimeout 0 0 none
          (by decide) hp
        exact hnn.1 (by decide)

/-- C5 witness: a valid job id whose record is already completed at the
first poll is returned immediately as a normal response. -/
theorem C5_witness :
    pyStrip uuidSample ≠ "" ∧ isValidUUID uuidSample = true ∧
    get_job_status uuidSample (fun _ => some sampleCompleted) =
      .ok (mkStatusResponse sampleCompleted) := by
  refine ⟨by decide, by decide, ?_⟩
  exact (C5_status_query_polling uuidSample (fun _ => some sampleCompleted)
      (by decide) (by decide)).1 0 sampleCompleted (by decide) rfl
    (Or.inl rfl) (fun j hj => absurd hj (Nat.not_lt_zero j))

